import Mathlib

/-!
Verification of the angulator mediator library.

The embedding models the TypeScript source of
`projects/angulator/src/lib` (the `Mediator` service with its `send`,
`sendAsync`, `sendSimple`, `publish` and `getHandler` members, and the
`provideMediator` registry builder) as executable Lean definitions:

* JavaScript runtime values that matter to dispatch are a constructor
  name plus an object identity (`RequestVal`, `NotifVal`);
* rxjs observables are modelled by the finite sequence of values they
  emit followed by a terminal event (`Obs`), promises by their settled
  outcome (`JsPromise`);
* a handler's `Observable | Promise | TResponse` union return type is
  `HandlerResult`;
* the JavaScript `Map` is `JsMap`, an association list with `Map.get`
  and `Map.set` (insert-or-update-in-place) semantics;
* side effects of handlers and pipeline behaviors are made explicit by
  threading a state `σ` through every call, so invocation order is
  observable as a trace.

Throwing functions return `Except JsError` (or `Option JsError` for the
`void` notification handlers); an error value aborts the rest of the
computation exactly where a thrown exception would.
-/

namespace Angulator

/-- A JavaScript `Error`, identified by its message. -/
structure JsError where
  message : String
deriving DecidableEq, Repr

/-- The settled outcome of a JavaScript promise. -/
inductive JsPromise (α : Type) where
  | resolved (v : α)
  | rejected (e : JsError)
deriving DecidableEq, Repr

/-- An rxjs observable, modelled by the finite list of values it emits
followed by its terminal event (`none` = completes, `some e` = errors). -/
structure Obs (α : Type) where
  emits : List α
  terminal : Option JsError
deriving DecidableEq, Repr

/-- rxjs `of(v)`: emit `v` once, then complete. -/
def Obs.of (v : α) : Obs α := ⟨[v], none⟩

/-- rxjs `from(promise)`: emit the resolved value then complete, or error
with the rejection reason. -/
def Obs.fromPromise (p : JsPromise α) : Obs α :=
  match p with
  | .resolved v => ⟨[v], none⟩
  | .rejected e => ⟨[], some e⟩

/-- rxjs `firstValueFrom`: resolve with the first emitted value; reject
with the observable's error, or with `EmptyError` when it completes
without emitting. -/
def firstValueFrom (o : Obs α) : JsPromise α :=
  match o.emits with
  | v :: _ => .resolved v
  | [] =>
    match o.terminal with
    | some e => .rejected e
    | none => .rejected ⟨"no elements in sequence"⟩

/-- The union type `Observable<T> | Promise<T> | T` returned by a request
handler's `handle` method. -/
inductive HandlerResult (α : Type) where
  | val (v : α)
  | prom (p : JsPromise α)
  | obs (o : Obs α)
deriving DecidableEq, Repr

/-- `isObservable(result) || result instanceof Promise` — the guard used
by `sendSimple`. -/
def HandlerResult.isAsyncLike : HandlerResult α → Bool
  | .val _ => false
  | .prom _ => true
  | .obs _ => true

/-- A JavaScript `Map`, as an association list in insertion order. -/
def JsMap (κ ν : Type) : Type := List (κ × ν)

instance (κ ν : Type) [DecidableEq κ] [DecidableEq ν] : DecidableEq (JsMap κ ν) :=
  inferInstanceAs (DecidableEq (List (κ × ν)))

/-- The empty `Map`. -/
def JsMap.empty : JsMap κ ν := []

/-- `Map.prototype.get`: the value at the first (unique) occurrence of
the key, or `none`. -/
def JsMap.get [DecidableEq κ] : JsMap κ ν → κ → Option ν
  | [], _ => none
  | (k', v) :: rest, k => if k' = k then some v else JsMap.get rest k

/-- `Map.prototype.set`: update the existing entry in place, or append a
new entry at the end. -/
def JsMap.set [DecidableEq κ] : JsMap κ ν → κ → ν → JsMap κ ν
  | [], k, v => [(k, v)]
  | (k', v') :: rest, k, v =>
    if k' = k then (k, v) :: rest else (k', v') :: JsMap.set rest k v

/-- A request object: its constructor (the dispatch key) and its object
identity. -/
structure RequestVal where
  ctorName : String
  objId : Nat
deriving DecidableEq, Repr

/-- A notification object: its constructor (the dispatch key) and its
object identity. -/
structure NotifVal where
  ctorName : String
  objId : Nat
deriving DecidableEq, Repr

/-- A request handler instance: `handle(request)` returning the
`Observable | Promise | TResponse` union, with explicit state passing
for its side effects. -/
def RequestHandlerFn (σ α : Type) : Type :=
  RequestVal → σ → HandlerResult α × σ

/-- A pipeline behavior instance: `handle(request, next)` where `next`
is the zero-argument continuation `RequestHandlerDelegate`. -/
def BehaviorFn (σ α : Type) : Type :=
  RequestVal → (Unit → σ → α × σ) → σ → α × σ

/-- A notification handler instance: `handle(notification)` returning
`void`; `some e` models a thrown error. -/
def NotifHandlerFn (σ : Type) : Type :=
  NotifVal → σ → Option JsError × σ

/-- The error thrown by `Mediator.getHandler` when the request's
constructor has no entry in the request-handler map. -/
def noHandlerError (ctorName : String) : JsError :=
  ⟨"No handler found for request: " ++ ctorName⟩

/-- The error thrown by `Mediator.sendSimple` when the pipeline's result
is an observable or a promise. -/
def syncOnlyError : JsError :=
  ⟨"sendSimple can only be used with synchronous handlers"⟩

/-- `Mediator.getHandler`: look up the request's constructor in the
request-handler map; throw `noHandlerError` when absent, otherwise
resolve the handler type to an instance through the injector. -/
def getHandler (requestHandlerMap : JsMap String κ)
    (injector : κ → RequestHandlerFn σ α) (request : RequestVal) :
    Except JsError (RequestHandlerFn σ α) :=
  match JsMap.get requestHandlerMap request.ctorName with
  | none => .error (noHandlerError request.ctorName)
  | some handlerType => .ok (injector handlerType)

/-- The `reduceRight` expression shared by `send` and `sendSimple`:
fold the behavior list from the right over the terminal `handle`
continuation, nesting each behavior around the accumulated chain. -/
def buildPipeline (pipelineBehaviors : List (BehaviorFn σ α))
    (request : RequestVal) (handle : Unit → σ → α × σ) :
    Unit → σ → α × σ :=
  pipelineBehaviors.foldr (fun behavior next => fun _ => behavior request next) handle

/-- `Mediator.send`: resolve the handler, wrap its invocation in a
continuation that normalizes the result to an observable (pass an
observable through, `from` a promise, `of` a plain value), build the
behavior pipeline around it, and run the pipeline. The `Except` layer
is the synchronous throw of `getHandler`. -/
def send (requestHandlerMap : JsMap String κ)
    (pipelineBehaviors : List (BehaviorFn σ (Obs α)))
    (injector : κ → RequestHandlerFn σ α) (request : RequestVal) (s : σ) :
    Except JsError (Obs α) × σ :=
  match getHandler requestHandlerMap injector request with
  | .error e => (.error e, s)
  | .ok handler =>
    let handle : Unit → σ → Obs α × σ := fun _ s0 =>
      let (result, s1) := handler request s0
      (match result with
       | .obs o => o
       | .prom p => Obs.fromPromise p
       | .val v => Obs.of v, s1)
    let pipeline := buildPipeline pipelineBehaviors request handle
    let (o, s1) := pipeline () s
    (.ok o, s1)

/-- The observable outcome of calling a JavaScript `async` function: it
either throws synchronously at the call site or returns a promise. An
`async` function never takes the first branch — an abrupt completion of
its body is converted into a rejected promise. -/
inductive AsyncCall (α : Type) where
  | syncThrow (e : JsError)
  | promise (p : JsPromise α)
deriving DecidableEq, Repr

/-- Whether the call raised a synchronous exception. -/
def AsyncCall.isSyncThrow : AsyncCall α → Bool
  | .syncThrow _ => true
  | .promise _ => false

/-- `Mediator.sendAsync`: `async` wrapper returning
`await firstValueFrom(this.send(request))`. Because the function is
`async`, a synchronous throw inside its body (notably `getHandler`'s)
becomes a rejected promise at the call site. -/
def sendAsync (requestHandlerMap : JsMap String κ)
    (pipelineBehaviors : List (BehaviorFn σ (Obs α)))
    (injector : κ → RequestHandlerFn σ α) (request : RequestVal) (s : σ) :
    AsyncCall α × σ :=
  match send requestHandlerMap pipelineBehaviors injector request s with
  | (.error e, s1) => (.promise (.rejected e), s1)
  | (.ok o, s1) => (.promise (firstValueFrom o), s1)

/-- `Mediator.sendSimple`: resolve the handler, build the behavior
pipeline around the raw (unnormalized) handler invocation, run the
pipeline to completion, and only then inspect the result: an observable
or promise result makes it throw `syncOnlyError`, a plain value is
returned directly. -/
def sendSimple (requestHandlerMap : JsMap String κ)
    (pipelineBehaviors : List (BehaviorFn σ (HandlerResult α)))
    (injector : κ → RequestHandlerFn σ α) (request : RequestVal) (s : σ) :
    Except JsError α × σ :=
  match getHandler requestHandlerMap injector request with
  | .error e => (.error e, s)
  | .ok handler =>
    let handle : Unit → σ → HandlerResult α × σ := fun _ s0 => handler request s0
    let pipeline := buildPipeline pipelineBehaviors request handle
    let (result, s1) := pipeline () s
    if result.isAsyncLike then (.error syncOnlyError, s1)
    else
      match result with
      | .val v => (.ok v, s1)
      | .prom _ => (.error syncOnlyError, s1)
      | .obs _ => (.error syncOnlyError, s1)

/-- The `forEach` body of `Mediator.publish`: for each handler type in
order, resolve an instance through the injector and invoke `handle`
with the notification; a thrown error aborts the remaining handlers and
propagates. -/
def runNotificationHandlers (injector : κ → NotifHandlerFn σ) :
    List κ → NotifVal → σ → Option JsError × σ
  | [], _, s => (none, s)
  | handlerType :: rest, n, s =>
    match injector handlerType n s with
    | (some e, s1) => (some e, s1)
    | (none, s1) => runNotificationHandlers injector rest n s1

/-- `Mediator.publish`: look up the notification's constructor in the
notification-handler map; when absent do nothing, otherwise invoke every
registered handler in order. -/
def publish (notificationHandlerMap : JsMap String (List κ))
    (injector : κ → NotifHandlerFn σ) (n : NotifVal) (s : σ) :
    Option JsError × σ :=
  match JsMap.get notificationHandlerMap n.ctorName with
  | none => (none, s)
  | some handlerTypes => runNotificationHandlers injector handlerTypes n s

/-- A candidate handler class as seen by `provideMediator`: its identity
and the two independent pieces of `Reflect` metadata attached by the
`RequestHandler` and `NotificationHandler` decorators (`none` when the
decorator was not applied). -/
structure HandlerClass where
  className : String
  requestMeta : Option String
  notificationMeta : Option String
deriving DecidableEq, Repr

/-- One iteration of the `forEach` loop in `provideMediator`: read the
request metadata and, when present, `set` the class into the request
map; read the notification metadata and, when present, append the class
to the list at that key (starting from `[]` on first insertion). -/
def registerHandler
    (maps : JsMap String HandlerClass × JsMap String (List HandlerClass))
    (handler : HandlerClass) :
    JsMap String HandlerClass × JsMap String (List HandlerClass) :=
  let rmap :=
    match handler.requestMeta with
    | some request => JsMap.set maps.1 request handler
    | none => maps.1
  let nmap :=
    match handler.notificationMeta with
    | some notif =>
      let existing := (JsMap.get maps.2 notif).getD []
      JsMap.set maps.2 notif (existing ++ [handler])
    | none => maps.2
  (rmap, nmap)

/-- `provideMediator`: fold the candidate class list over `registerHandler`,
building the request-handler map and the notification-handler map in a
single pass. -/
def provideMediator (handlers : List HandlerClass) :
    JsMap String HandlerClass × JsMap String (List HandlerClass) :=
  handlers.foldl registerHandler (JsMap.empty, JsMap.empty)

/-- The request-map component of the fold, on its own: processes only
the request metadata. -/
def reqFoldFrom : List HandlerClass → JsMap String HandlerClass →
    JsMap String HandlerClass
  | [], m => m
  | h :: rest, m =>
    reqFoldFrom rest
      (match h.requestMeta with
       | some request => JsMap.set m request h
       | none => m)

/-- The notification-map component of the fold, on its own: processes
only the notification metadata. -/
def notifFoldFrom : List HandlerClass → JsMap String (List HandlerClass) →
    JsMap String (List HandlerClass)
  | [], m => m
  | h :: rest, m =>
    notifFoldFrom rest
      (match h.notificationMeta with
       | some notif => JsMap.set m notif ((JsMap.get m notif).getD [] ++ [h])
       | none => m)

/-- The request map built from the request metadata alone. -/
def buildRequestMap (handlers : List HandlerClass) : JsMap String HandlerClass :=
  reqFoldFrom handlers JsMap.empty

/-- The notification map built from the notification metadata alone. -/
def buildNotificationMap (handlers : List HandlerClass) :
    JsMap String (List HandlerClass) :=
  notifFoldFrom handlers JsMap.empty

/-- The last class in the list declaring request type `R`, if any. -/
def lastReqDecl (R : String) : List HandlerClass → Option HandlerClass
  | [] => none
  | h :: rest =>
    match lastReqDecl R rest with
    | some c => some c
    | none => if h.requestMeta = some R then some h else none

/-- The classes declaring notification type `N`, in input order. -/
def notifDecls (N : String) : List HandlerClass → List HandlerClass
  | [] => []
  | h :: rest =>
    if h.notificationMeta = some N then h :: notifDecls N rest
    else notifDecls N rest

/-- Observable events of a dispatch, for trace-instrumented handlers and
behaviors: `recv tag r` records an invocation that received request `r`
(a behavior's pre-logic, or the handler itself), `mark tag` records a
behavior's post-logic, `handled name n` records a notification handler
invocation that received notification `n`. -/
inductive Event where
  | recv (tag : String) (request : RequestVal)
  | mark (tag : String)
  | handled (handlerName : String) (n : NotifVal)
deriving DecidableEq, Repr

/-- A behavior that logs its pre-logic (with the request it received),
calls its continuation, logs its post-logic, and returns the
continuation's result unchanged. -/
def wrapBehavior (preTag postTag : String) : BehaviorFn (List Event) α :=
  fun request next s =>
    let (v, s1) := next () (s ++ [Event.recv preTag request])
    (v, s1 ++ [Event.mark postTag])

/-- A behavior that logs its invocation and returns `v` without ever
calling its continuation. -/
def shortCircuitBehavior (tag : String) (v : α) : BehaviorFn (List Event) α :=
  fun request _ s => (v, s ++ [Event.recv tag request])

/-- A request handler that logs its invocation (with the request it
received) and returns the fixed result `r`. -/
def loggingHandler (tag : String) (r : HandlerResult α) :
    RequestHandlerFn (List Event) α :=
  fun request s => (r, s ++ [Event.recv tag request])

/-- A notification handler that logs its invocation and returns
normally. -/
def loggingNotifHandler (handlerName : String) : NotifHandlerFn (List Event) :=
  fun n s => (none, s ++ [Event.handled handlerName n])

/-- A notification handler that logs its invocation and then throws `e`. -/
def throwingNotifHandler (handlerName : String) (e : JsError) :
    NotifHandlerFn (List Event) :=
  fun n s => (some e, s ++ [Event.handled handlerName n])

/-! Helper lemmas about `JsMap` and the registry fold. -/

theorem JsMap.get_set_self [DecidableEq κ] (m : JsMap κ ν) (k : κ) (v : ν) :
    JsMap.get (JsMap.set m k v) k = some v := by
  induction m with
  | nil => simp [JsMap.set, JsMap.get]
  | cons hd rest ih =>
    obtain ⟨k', v'⟩ := hd
    by_cases hk : k' = k
    · simp [JsMap.set, JsMap.get, hk]
    · simp [JsMap.set, JsMap.get, hk, ih]

theorem JsMap.get_set_other [DecidableEq κ] (m : JsMap κ ν) (k k₀ : κ) (v : ν)
    (hne : k ≠ k₀) : JsMap.get (JsMap.set m k v) k₀ = JsMap.get m k₀ := by
  induction m with
  | nil => simp [JsMap.set, JsMap.get, hne]
  | cons hd rest ih =>
    obtain ⟨k', v'⟩ := hd
    by_cases hk : k' = k
    · subst hk
      simp [JsMap.set, JsMap.get, hne]
    · simp [JsMap.set, JsMap.get, hk, ih]

theorem provideMediator_decompose_aux (handlers : List HandlerClass)
    (rm : JsMap String HandlerClass) (nm : JsMap String (List HandlerClass)) :
    handlers.foldl registerHandler (rm, nm) =
      (reqFoldFrom handlers rm, notifFoldFrom handlers nm) := by
  induction handlers generalizing rm nm with
  | nil => simp [reqFoldFrom, notifFoldFrom]
  | cons h rest ih =>
    simp only [List.foldl_cons, reqFoldFrom, notifFoldFrom]
    rw [show registerHandler (rm, nm) h =
      ((match h.requestMeta with
        | some request => JsMap.set rm request h
        | none => rm),
       (match h.notificationMeta with
        | some notif => JsMap.set nm notif ((JsMap.get nm notif).getD [] ++ [h])
        | none => nm)) from rfl]
    exact ih _ _

/-- The single-pass fold of `provideMediator` decomposes into the two
independent metadata folds. -/
theorem provideMediator_decompose (handlers : List HandlerClass) :
    provideMediator handlers =
      (buildRequestMap handlers, buildNotificationMap handlers) :=
  provideMediator_decompose_aux handlers JsMap.empty JsMap.empty

theorem reqFoldFrom_get (handlers : List HandlerClass)
    (m : JsMap String HandlerClass) (R : String) :
    JsMap.get (reqFoldFrom handlers m) R =
      match lastReqDecl R handlers with
      | some c => some c
      | none => JsMap.get m R := by
  induction handlers generalizing m with
  | nil => simp [reqFoldFrom, lastReqDecl]
  | cons h rest ih =>
    simp only [reqFoldFrom, lastReqDecl]
    cases hreq : h.requestMeta with
    | none =>
      rw [ih]
      cases lastReqDecl R rest <;> simp
    | some R' =>
      rw [ih]
      by_cases hR : R' = R
      · cases lastReqDecl R rest <;> simp [hR, JsMap.get_set_self]
      · rw [JsMap.get_set_other _ _ _ _ hR]
        cases lastReqDecl R rest <;> simp [hR]

theorem notifFoldFrom_get (handlers : List HandlerClass)
    (m : JsMap String (List HandlerClass)) (N : String) :
    JsMap.get (notifFoldFrom handlers m) N =
      match JsMap.get m N with
      | some l0 => some (l0 ++ notifDecls N handlers)
      | none =>
        match notifDecls N handlers with
        | [] => none
        | l => some l := by
  induction handlers generalizing m with
  | nil =>
    simp only [notifFoldFrom, notifDecls]
    cases JsMap.get m N <;> simp
  | cons h rest ih =>
    simp only [notifFoldFrom, notifDecls]
    cases hmeta : h.notificationMeta with
    | none =>
      rw [ih]
      cases JsMap.get m N <;> simp
    | some N' =>
      rw [ih]
      by_cases hN : N' = N
      · subst hN
        rw [JsMap.get_set_self]
        cases hg : JsMap.get m N' with
        | some l0 => simp [hg]
        | none => simp [hg]
      · rw [JsMap.get_set_other _ _ _ _ hN]
        cases JsMap.get m N <;> cases notifDecls N rest <;> simp [hN]

theorem lastReqDecl_append (R : String) (l1 l2 : List HandlerClass) :
    lastReqDecl R (l1 ++ l2) =
      match lastReqDecl R l2 with
      | some c => some c
      | none => lastReqDecl R l1 := by
  induction l1 with
  | nil =>
    simp only [List.nil_append, lastReqDecl]
    cases lastReqDecl R l2 <;> simp
  | cons h t ih =>
    simp only [List.cons_append, lastReqDecl, List.append_eq]
    rw [ih]
    cases lastReqDecl R l2 <;> cases lastReqDecl R t <;> simp

theorem lastReqDecl_none_of_no_decl (R : String) (l : List HandlerClass)
    (h : ∀ c ∈ l, c.requestMeta ≠ some R) : lastReqDecl R l = none := by
  induction l with
  | nil => rfl
  | cons hd t ih =>
    simp only [lastReqDecl]
    rw [ih fun c hc => h c (List.mem_cons_of_mem hd hc)]
    simp [h hd (List.mem_cons_self hd t)]

theorem lastReqDecl_spec (R : String) (l : List HandlerClass) (c : HandlerClass)
    (hc : lastReqDecl R l = some c) : c ∈ l ∧ c.requestMeta = some R := by
  induction l with
  | nil => simp [lastReqDecl] at hc
  | cons hd t ih =>
    simp only [lastReqDecl] at hc
    cases hlast : lastReqDecl R t with
    | some d =>
      simp only [hlast, Option.some.injEq] at hc
      subst hc
      obtain ⟨hmem, hmeta⟩ := ih hlast
      exact ⟨List.mem_cons_of_mem hd hmem, hmeta⟩
    | none =>
      simp only [hlast] at hc
      by_cases hm : hd.requestMeta = some R
      · simp only [if_pos hm, Option.some.injEq] at hc
        subst hc
        exact ⟨List.mem_cons_self hd t, hm⟩
      · simp only [if_neg hm] at hc
        cases hc

theorem lastReqDecl_isSome_of_mem (R : String) (l : List HandlerClass)
    (c : HandlerClass) (hc : c ∈ l) (hm : c.requestMeta = some R) :
    ∃ d, lastReqDecl R l = some d := by
  induction l with
  | nil => simp at hc
  | cons hd t ih =>
    simp only [lastReqDecl]
    cases hlast : lastReqDecl R t with
    | some d => exact ⟨d, rfl⟩
    | none =>
      rcases List.mem_cons.mp hc with heq | hmem
      · subst heq
        exact ⟨c, by simp [hm]⟩
      · obtain ⟨d, hd'⟩ := ih hmem
        rw [hd'] at hlast
        cases hlast

theorem mem_notifDecls (N : String) (l : List HandlerClass) (c : HandlerClass)
    (hc : c ∈ l) (hm : c.notificationMeta = some N) : c ∈ notifDecls N l := by
  induction l with
  | nil => simp at hc
  | cons hd t ih =>
    simp only [notifDecls]
    rcases List.mem_cons.mp hc with heq | hmem
    · subst heq
      simp [hm]
    · by_cases hhd : hd.notificationMeta = some N
      · simp only [if_pos hhd]
        exact List.mem_cons_of_mem hd (ih hmem)
      · simp only [if_neg hhd]
        exact ih hmem

/-- Claim C6: for every input list to the registry builder in which two
handler classes declare the same request type (the second one not
followed by any further declarer of that type), the built request map
binds that request type to the later of the two classes: the second
registration overwrites the first. -/
theorem duplicate_request_registration_last_wins
    (pre mid post : List HandlerClass) (c1 c2 : HandlerClass) (R : String)
    (_h1 : c1.requestMeta = some R) (h2 : c2.requestMeta = some R)
    (hpost : ∀ c ∈ post, c.requestMeta ≠ some R) :
    JsMap.get (provideMediator (pre ++ c1 :: mid ++ c2 :: post)).1 R = some c2 := by
  rw [provideMediator_decompose]
  show JsMap.get (buildRequestMap (pre ++ c1 :: mid ++ c2 :: post)) R = some c2
  rw [buildRequestMap, reqFoldFrom_get]
  have hc2post : lastReqDecl R (c2 :: post) = some c2 := by
    simp only [lastReqDecl, lastReqDecl_none_of_no_decl R post hpost]
    simp [h2]
  rw [lastReqDecl_append R (pre ++ c1 :: mid) (c2 :: post), hc2post]

/-- Claim C6 witness: registering two classes that both declare request
type `Req` binds `Req` to the second class. -/
theorem duplicate_request_registration_last_wins_witness :
    JsMap.get
      (provideMediator
        [⟨"FirstHandler", some "Req", none⟩, ⟨"SecondHandler", some "Req", none⟩]).1
      "Req" = some ⟨"SecondHandler", some "Req", none⟩ :=
  duplicate_request_registration_last_wins [] [] []
    ⟨"FirstHandler", some "Req", none⟩ ⟨"SecondHandler", some "Req", none⟩
    "Req" rfl rfl (by simp)

/-- Claim C7: round-trip of registration. For every class list with no
two distinct classes declaring the same request type, looking up each
declared request type in the built request map returns exactly the
class that declared it, and looking up each declared notification type
in the built notification map returns exactly the classes that declared
it, in input order (`notifDecls` is by definition the input-order
sublist of declarers). -/
theorem registration_round_trip (handlers : List HandlerClass)
    (huniq : ∀ c1 c2 R, c1 ∈ handlers → c2 ∈ handlers →
      c1.requestMeta = some R → c2.requestMeta = some R → c1 = c2) :
    (∀ c R, c ∈ handlers → c.requestMeta = some R →
      JsMap.get (provideMediator handlers).1 R = some c) ∧
    (∀ c N, c ∈ handlers → c.notificationMeta = some N →
      JsMap.get (provideMediator handlers).2 N = some (notifDecls N handlers)) := by
  constructor
  · intro c R hc hm
    rw [provideMediator_decompose]
    show JsMap.get (buildRequestMap handlers) R = some c
    rw [buildRequestMap, reqFoldFrom_get]
    obtain ⟨d, hd⟩ := lastReqDecl_isSome_of_mem R handlers c hc hm
    obtain ⟨hdmem, hdmeta⟩ := lastReqDecl_spec R handlers d hd
    have : d = c := huniq d c R hdmem hc hdmeta hm
    subst this
    simp [hd]
  · intro c N hc hm
    rw [provideMediator_decompose]
    show JsMap.get (buildNotificationMap handlers) N = some (notifDecls N handlers)
    rw [buildNotificationMap, notifFoldFrom_get]
    have hne : notifDecls N handlers ≠ [] :=
      List.ne_nil_of_mem (mem_notifDecls N handlers c hc hm)
    cases hd : notifDecls N handlers with
    | nil => exact absurd hd hne
    | cons x xs => simp [JsMap.empty, JsMap.get]

/-- Claim C7 witness: a registry built from one request handler and two
notification handlers round-trips both lookups. -/
theorem registration_round_trip_witness :
    JsMap.get
      (provideMediator
        [⟨"ReqHandler", some "ReqA", none⟩, ⟨"NotifHandler1", none, some "NotifN"⟩,
          ⟨"NotifHandler2", none, some "NotifN"⟩]).1 "ReqA" =
      some ⟨"ReqHandler", some "ReqA", none⟩ ∧
    JsMap.get
      (provideMediator
        [⟨"ReqHandler", some "ReqA", none⟩, ⟨"NotifHandler1", none, some "NotifN"⟩,
          ⟨"NotifHandler2", none, some "NotifN"⟩]).2 "NotifN" =
      some [⟨"NotifHandler1", none, some "NotifN"⟩, ⟨"NotifHandler2", none, some "NotifN"⟩] := by
  have huniq : ∀ c1 c2 R,
      c1 ∈ [(⟨"ReqHandler", some "ReqA", none⟩ : HandlerClass),
        ⟨"NotifHandler1", none, some "NotifN"⟩, ⟨"NotifHandler2", none, some "NotifN"⟩] →
      c2 ∈ [(⟨"ReqHandler", some "ReqA", none⟩ : HandlerClass),
        ⟨"NotifHandler1", none, some "NotifN"⟩, ⟨"NotifHandler2", none, some "NotifN"⟩] →
      c1.requestMeta = some R → c2.requestMeta = some R → c1 = c2 := by
    intro c1 c2 R h1 h2 m1 m2
    fin_cases h1 <;> fin_cases h2 <;> simp_all
  exact ⟨(registration_round_trip _ huniq).1 _ "ReqA" (by decide) rfl,
    (registration_round_trip _ huniq).2 ⟨"NotifHandler1", none, some "NotifN"⟩ "NotifN"
      (by decide) rfl⟩

/-- Claim C9: the registry builder reads the request metadata and the
notification metadata of each class independently in its single pass:
the combined fold equals the pair of the two independent single-purpose
folds, and a class carrying both kinds of metadata is entered into both
registries — its request type maps to it and its notification type's
list contains it. -/
theorem single_pass_registers_both_kinds :
    (∀ handlers : List HandlerClass,
      provideMediator handlers = (buildRequestMap handlers, buildNotificationMap handlers)) ∧
    (∀ (c : HandlerClass) (R N : String),
      c.requestMeta = some R → c.notificationMeta = some N →
      JsMap.get (provideMediator [c]).1 R = some c ∧
      JsMap.get (provideMediator [c]).2 N = some [c]) := by
  refine ⟨provideMediator_decompose, ?_⟩
  intro c R N hR hN
  rw [provideMediator_decompose]
  constructor
  · show JsMap.get (buildRequestMap [c]) R = some c
    simp [buildRequestMap, reqFoldFrom, hR, JsMap.empty, JsMap.set, JsMap.get]
  · show JsMap.get (buildNotificationMap [c]) N = some [c]
    simp [buildNotificationMap, notifFoldFrom, hN, JsMap.empty, JsMap.set, JsMap.get]

/-- Claim C9 witness: a single class declaring both a request type and a
notification type appears in both registries. -/
theorem single_pass_registers_both_kinds_witness :
    JsMap.get (provideMediator [⟨"DualHandler", some "ReqA", some "NotifB"⟩]).1 "ReqA" =
      some ⟨"DualHandler", some "ReqA", some "NotifB"⟩ ∧
    JsMap.get (provideMediator [⟨"DualHandler", some "ReqA", some "NotifB"⟩]).2 "NotifB" =
      some [⟨"DualHandler", some "ReqA", some "NotifB"⟩] :=
  single_pass_registers_both_kinds.2 ⟨"DualHandler", some "ReqA", some "NotifB"⟩
    "ReqA" "NotifB" rfl rfl

/-- Claim C1: for every request whose runtime type is mapped to a
handler that returns an immediate (synchronous) value `v`, with no
pipeline behaviors registered, `send` returns an observable that emits
exactly `v` once and then completes, `sendAsync` returns a promise
resolved with `v`, and `sendSimple` returns `v` directly. -/
theorem sync_handler_value_all_entry_points {σ α κ : Type}
    (rmap : JsMap String κ) (injector : κ → RequestHandlerFn σ α)
    (ht : κ) (request : RequestVal) (v : α) (s s' : σ)
    (hmap : JsMap.get rmap request.ctorName = some ht)
    (hinj : injector ht request s = (.val v, s')) :
    send rmap [] injector request s = (.ok ⟨[v], none⟩, s') ∧
    sendAsync rmap [] injector request s = (.promise (.resolved v), s') ∧
    sendSimple rmap [] injector request s = (.ok v, s') := by
  have hsend : send rmap [] injector request s = (.ok ⟨[v], none⟩, s') := by
    simp [send, getHandler, hmap, buildPipeline, hinj, Obs.of]
  refine ⟨hsend, ?_, ?_⟩
  · simp [sendAsync, hsend, firstValueFrom]
  · simp [sendSimple, getHandler, hmap, buildPipeline, hinj,
      HandlerResult.isAsyncLike]

/-- Claim C1 witness: a registered synchronous handler returning
`"sync response"` observed through all three entry points. -/
theorem sync_handler_value_all_entry_points_witness :
    send [("SyncRequest", "SyncRequestHandler")] []
        (fun _ => fun _ (s : Unit) => (.val "sync response", s))
        ⟨"SyncRequest", 0⟩ () =
      (.ok ⟨["sync response"], none⟩, ()) ∧
    sendAsync [("SyncRequest", "SyncRequestHandler")] []
        (fun _ => fun _ (s : Unit) => (.val "sync response", s))
        ⟨"SyncRequest", 0⟩ () =
      (.promise (.resolved "sync response"), ()) ∧
    sendSimple [("SyncRequest", "SyncRequestHandler")] []
        (fun _ => fun _ (s : Unit) => (.val "sync response", s))
        ⟨"SyncRequest", 0⟩ () =
      (.ok "sync response", ()) :=
  sync_handler_value_all_entry_points _ _ "SyncRequestHandler" _ _ _ _ rfl rfl

/-- Claim C2 (amended): for every request whose runtime type has no
entry in the request-handler registry, `send` and `sendSimple` throw —
synchronously, before any behavior or handler can run (the state is
unchanged) — an error whose message names the concrete runtime type;
`sendAsync`, being an `async` function, raises no synchronous error:
it returns a promise rejected with that same error. -/
theorem missing_handler_error_entry_points {σ α κ : Type}
    (rmap : JsMap String κ)
    (sendBehaviors : List (BehaviorFn σ (Obs α)))
    (simpleBehaviors : List (BehaviorFn σ (HandlerResult α)))
    (injector : κ → RequestHandlerFn σ α) (request : RequestVal) (s : σ)
    (hmap : JsMap.get rmap request.ctorName = none) :
    send rmap sendBehaviors injector request s =
      (.error (noHandlerError request.ctorName), s) ∧
    sendSimple rmap simpleBehaviors injector request s =
      (.error (noHandlerError request.ctorName), s) ∧
    sendAsync rmap sendBehaviors injector request s =
      (.promise (.rejected (noHandlerError request.ctorName)), s) ∧
    (sendAsync rmap sendBehaviors injector request s).1.isSyncThrow = false ∧
    (noHandlerError request.ctorName).message =
      "No handler found for request: " ++ request.ctorName := by
  have hsend : send rmap sendBehaviors injector request s =
      (.error (noHandlerError request.ctorName), s) := by
    simp [send, getHandler, hmap]
  refine ⟨hsend, ?_, ?_, ?_, rfl⟩
  · simp [sendSimple, getHandler, hmap]
  · simp [sendAsync, hsend]
  · simp [sendAsync, hsend, AsyncCall.isSyncThrow]

/-- Claim C2 witness (for the amended statement): the concrete
unregistered request `UnhandledRequest` against an empty registry. -/
theorem missing_handler_error_entry_points_witness :
    send (JsMap.empty : JsMap String String) []
        (fun _ => fun _ (s : Unit) => (.val (0 : Nat), s))
        ⟨"UnhandledRequest", 0⟩ () =
      (.error (noHandlerError "UnhandledRequest"), ()) ∧
    sendSimple (JsMap.empty : JsMap String String) []
        (fun _ => fun _ (s : Unit) => (.val (0 : Nat), s))
        ⟨"UnhandledRequest", 0⟩ () =
      (.error (noHandlerError "UnhandledRequest"), ()) ∧
    sendAsync (JsMap.empty : JsMap String String) []
        (fun _ => fun _ (s : Unit) => (.val (0 : Nat), s))
        ⟨"UnhandledRequest", 0⟩ () =
      (.promise (.rejected (noHandlerError "UnhandledRequest")), ()) ∧
    (sendAsync (JsMap.empty : JsMap String String) []
        (fun _ => fun _ (s : Unit) => (.val (0 : Nat), s))
        ⟨"UnhandledRequest", 0⟩ ()).1.isSyncThrow = false ∧
    (noHandlerError "UnhandledRequest").message =
      "No handler found for request: " ++ "UnhandledRequest" :=
  missing_handler_error_entry_points _ _ _ _ ⟨"UnhandledRequest", 0⟩ _ rfl

/-- Claim C2 counterexample: at the concrete unregistered request
`UnhandledRequest`, calling `sendAsync` does not raise a synchronous
error as the claim states for all three entry points — the
`HandlerNotFound` error surfaces only as the rejection of the returned
promise. -/
theorem sendAsync_missing_handler_no_sync_throw :
    (sendAsync (JsMap.empty : JsMap String String) []
        (fun _ => fun _ (s : Unit) => (.val (0 : Nat), s))
        ⟨"UnhandledRequest", 0⟩ ()).1.isSyncThrow = false ∧
    sendAsync (JsMap.empty : JsMap String String) []
        (fun _ => fun _ (s : Unit) => (.val (0 : Nat), s))
        ⟨"UnhandledRequest", 0⟩ () =
      (.promise (.rejected ⟨"No handler found for request: UnhandledRequest"⟩), ()) :=
  ⟨rfl, rfl⟩

/-- Claim C3: the behavior pipeline is the right-fold nesting
`B1(next = B2(next = H))`; dispatching with behaviors `[B1, B2]`
executes B1 pre-logic, B2 pre-logic, the handler, B2 post-logic,
B1 post-logic in that order, each behavior and the handler receiving the
original request through a zero-argument continuation chain; and a
behavior that does not call its continuation prevents the downstream
behavior and the handler from executing. -/
theorem pipeline_nesting_order_short_circuit :
    (∀ (σ α : Type) (b1 b2 : BehaviorFn σ α) (request : RequestVal)
        (handle : Unit → σ → α × σ),
      buildPipeline [b1, b2] request handle =
        fun _ => b1 request fun _ => b2 request handle) ∧
    (∀ (α κ : Type) (p1 q1 p2 q2 hTag : String) (ht : κ)
        (request : RequestVal) (v : α) (s : List Event),
      send [(request.ctorName, ht)] [wrapBehavior p1 q1, wrapBehavior p2 q2]
          (fun _ => loggingHandler hTag (.val v)) request s =
        (.ok ⟨[v], none⟩,
          s ++ [.recv p1 request, .recv p2 request, .recv hTag request,
            .mark q2, .mark q1])) ∧
    (∀ (α κ : Type) (tag p2 q2 hTag : String) (ht : κ) (request : RequestVal)
        (o : Obs α) (r : HandlerResult α) (s : List Event),
      send [(request.ctorName, ht)]
          [shortCircuitBehavior tag o, wrapBehavior p2 q2]
          (fun _ => loggingHandler hTag r) request s =
        (.ok o, s ++ [.recv tag request])) := by
  refine ⟨fun σ α b1 b2 request handle => rfl, ?_, ?_⟩
  · intro α κ p1 q1 p2 q2 hTag ht request v s
    simp [send, getHandler, JsMap.get, buildPipeline, wrapBehavior,
      loggingHandler, Obs.of, List.append_assoc]
  · intro α κ tag p2 q2 hTag ht request o r s
    simp [send, getHandler, JsMap.get, buildPipeline, shortCircuitBehavior,
      wrapBehavior, loggingHandler]

/-- Claim C4: for every request whose registered handler produces an
asynchronous or lazy result (a promise or an observable), with no
pipeline behaviors registered, `sendSimple` throws the
synchronous-contract error, regardless of which promise or observable —
and hence regardless of its eventual value. -/
theorem sendSimple_async_handler_violation {σ α κ : Type}
    (rmap : JsMap String κ) (injector : κ → RequestHandlerFn σ α)
    (ht : κ) (request : RequestVal) (r : HandlerResult α) (s s' : σ)
    (hmap : JsMap.get rmap request.ctorName = some ht)
    (hinj : injector ht request s = (r, s'))
    (hasync : r.isAsyncLike = true) :
    sendSimple rmap [] injector request s = (.error syncOnlyError, s') := by
  simp [sendSimple, getHandler, hmap, buildPipeline, hinj, hasync]

/-- Claim C4 witness: a handler returning a resolved promise makes
`sendSimple` throw even though the eventual value exists. -/
theorem sendSimple_async_handler_violation_witness :
    sendSimple [("AsyncPromiseRequest", "AsyncPromiseRequestHandler")] []
        (fun _ => fun _ (s : Unit) =>
          (.prom (.resolved "async promise response"), s))
        ⟨"AsyncPromiseRequest", 0⟩ () =
      (.error syncOnlyError, ()) :=
  sendSimple_async_handler_violation _ _ "AsyncPromiseRequestHandler" _ _ _ _
    rfl rfl rfl

/-- Claim C5: publishing a notification whose runtime type maps to the
handler list `[H1, H2]` invokes H1's `handle` and then H2's `handle`,
each exactly once, with the same notification value, strictly
sequentially; and when the first handler's invocation throws, the second
handler is never invoked and the error propagates unmodified to the
caller. The injector is the identity: the registry holds the handler
instances themselves. -/
theorem publish_order_once_and_error_propagation :
    (∀ (h1 h2 : String) (n : NotifVal) (s : List Event),
      publish [(n.ctorName, [loggingNotifHandler h1, loggingNotifHandler h2])]
          (fun h => h) n s =
        (none, s ++ [.handled h1 n, .handled h2 n])) ∧
    (∀ (h1 h2 : String) (e : JsError) (n : NotifVal) (s : List Event),
      publish [(n.ctorName, [throwingNotifHandler h1 e, loggingNotifHandler h2])]
          (fun h => h) n s =
        (some e, s ++ [.handled h1 n])) := by
  constructor
  · intro h1 h2 n s
    simp [publish, JsMap.get, runNotificationHandlers, loggingNotifHandler,
      List.append_assoc]
  · intro h1 h2 e n s
    simp [publish, JsMap.get, runNotificationHandlers, loggingNotifHandler,
      throwingNotifHandler]

/-- Claim C8: publishing a notification whose runtime type has no entry
in the notification-handler map performs no work: no error is raised,
the state is unchanged, and the outcome does not depend on the injector
at all — no handler instance is resolved or invoked. -/
theorem publish_unregistered_noop {σ κ : Type}
    (nmap : JsMap String (List κ)) (injector injector2 : κ → NotifHandlerFn σ)
    (n : NotifVal) (s : σ)
    (hmap : JsMap.get nmap n.ctorName = none) :
    publish nmap injector n s = (none, s) ∧
    publish nmap injector n s = publish nmap injector2 n s := by
  constructor <;> simp [publish, hmap]

/-- Claim C8 witness: publishing `AnotherNotification` against an empty
notification registry is a no-op for any injector. -/
theorem publish_unregistered_noop_witness :
    publish (JsMap.empty : JsMap String (List (NotifHandlerFn (List Event))))
        (fun h => h) ⟨"AnotherNotification", 0⟩ [] = (none, []) ∧
    publish (JsMap.empty : JsMap String (List (NotifHandlerFn (List Event))))
        (fun h => h) ⟨"AnotherNotification", 0⟩ [] =
      publish (JsMap.empty : JsMap String (List (NotifHandlerFn (List Event))))
        (fun _ => loggingNotifHandler "TestNotificationHandler")
        ⟨"AnotherNotification", 0⟩ [] :=
  publish_unregistered_noop _ _ _ _ _ rfl

/-- Claim C10: in `sendSimple` the entire pipeline — both behaviors and
the resolved handler — runs to completion before the result is
inspected: with a handler returning a promise, the thrown
synchronous-contract error leaves a trace already containing both
behaviors' pre-logic, the handler invocation, and both behaviors'
post-logic; the error is a post-hoc guard, not a pre-check. -/
theorem sendSimple_guard_is_post_hoc (α κ : Type)
    (p1 q1 p2 q2 hTag : String) (ht : κ) (request : RequestVal)
    (p : JsPromise α) (s : List Event) :
    sendSimple [(request.ctorName, ht)]
        [wrapBehavior p1 q1, wrapBehavior p2 q2]
        (fun _ => loggingHandler hTag (.prom p)) request s =
      (.error syncOnlyError,
        s ++ [.recv p1 request, .recv p2 request, .recv hTag request,
          .mark q2, .mark q1]) := by
  simp [sendSimple, getHandler, JsMap.get, buildPipeline, wrapBehavior,
    loggingHandler, HandlerResult.isAsyncLike, List.append_assoc]

end Angulator
